import Mathlib

/-!
Verification development for the db-sync-monitoring repository
(scripts: db-sync-process-monitor.py, simple-db-sync-monitor.py,
regenerate-plots.py).

Shallow embedding conventions:
* Python floats coming from psutil (byte counts divided by 1024 powers,
  CPU seconds, percentages) are modelled as exact rationals (Rat).
* sqlite tables are lists of row records in insertion order; INSERT is
  appending at the end (the tables have no constraints, so an INSERT
  never fails).
* A fallible Python call (an except-guarded body, a platform attribute
  that may be missing) is modelled with Option: none is the exception /
  absent-attribute case.
* SQL ORDER BY over a plain table scan is modelled as a stable
  insertion sort on the key column (SQLite scans the table in rowid =
  insertion order and its sorter preserves that order between equal
  keys).
* SELECT DISTINCT v ... ORDER BY t DESC is modelled after observed
  SQLite semantics: the scan keeps the first row of each distinct
  value of v (temp b-tree dedup in scan order), and those surviving
  rows are then sorted by t descending.
* ISO timestamp strings produced by datetime.now().isoformat() are
  modelled as Nat instants (their text ordering on one machine is
  their creation ordering).
-/

/-- Result of process.memory_info(): rss and vms always exist; the
shared field is platform dependent (absent on some platforms). -/
structure MemoryInfo where
  rss : Rat
  vms : Rat
  shared : Option Rat
deriving DecidableEq

/-- Result of process.memory_full_info(): the uss, pss and swap fields
are platform dependent. -/
structure MemoryFullInfo where
  uss : Option Rat
  pss : Option Rat
  swap : Option Rat
deriving DecidableEq

/-- Result of process.cpu_times(); children and iowait fields are
platform dependent. -/
structure CpuTimes where
  user : Rat
  system : Rat
  children_user : Option Rat
  children_system : Option Rat
  iowait : Option Rat
deriving DecidableEq

/-- Result of process.num_ctx_switches(). -/
structure CtxSwitches where
  voluntary : Int
  involuntary : Int
deriving DecidableEq

/-- One successful round of platform CPU reads for the located
process: cpu_times(), cpu_percent(interval=None) and
num_ctx_switches(). -/
structure CpuReading where
  times : CpuTimes
  percent : Rat
  ctx : CtxSwitches
deriving DecidableEq

/-- A printed metric field of the one-line status output: either a
numeric value or the "N/A" placeholder text. -/
inductive StatusField where
  | value : Rat → StatusField
  | na : StatusField
deriving DecidableEq

/-! ### Stable sorting by an integer key (model of SQL ORDER BY) -/

/-- ORDER BY on an integer key column, as a stable insertion sort:
equal keys keep their scan (insertion) order. -/
def sortByKey {α : Type} (k : α → Int) (l : List α) : List α :=
  List.insertionSort (fun a b => k a ≤ k b) l

theorem sortByKey_perm {α : Type} (k : α → Int) (l : List α) :
    List.Perm (sortByKey k l) l :=
  List.perm_insertionSort _ l

theorem sortByKey_sorted {α : Type} (k : α → Int) (l : List α) :
    List.Sorted (fun a b => k a ≤ k b) (sortByKey k l) := by
  haveI : IsTotal α (fun a b => k a ≤ k b) := ⟨fun a b => Int.le_total _ _⟩
  haveI : IsTrans α (fun a b => k a ≤ k b) := ⟨fun a b c hab hbc => le_trans hab hbc⟩
  exact List.sorted_insertionSort _ l

theorem filter_orderedInsert_pos {α : Type} (k : α → Int) (p : α → Bool) (a : α)
    (hpa : p a = true) (hlt : ∀ b, k b < k a → p b = false) :
    ∀ l : List α,
      (List.orderedInsert (fun a b => k a ≤ k b) a l).filter p = a :: l.filter p
  | [] => by simp [List.orderedInsert, hpa]
  | b :: l => by
    by_cases h : k a ≤ k b
    · simp only [List.orderedInsert, if_pos h]
      simp [List.filter, hpa]
    · have hpb : p b = false := hlt b (by omega)
      simp only [List.orderedInsert, if_neg h]
      simp [List.filter, hpb, filter_orderedInsert_pos k p a hpa hlt l]

theorem filter_orderedInsert_neg {α : Type} (k : α → Int) (p : α → Bool) (a : α)
    (hpa : p a = false) :
    ∀ l : List α,
      (List.orderedInsert (fun a b => k a ≤ k b) a l).filter p = l.filter p
  | [] => by simp [List.orderedInsert, hpa]
  | b :: l => by
    by_cases h : k a ≤ k b
    · simp only [List.orderedInsert, if_pos h]
      simp [List.filter, hpa]
    · simp only [List.orderedInsert, if_neg h]
      cases hb : p b <;>
        simp [List.filter, hb, filter_orderedInsert_neg k p a hpa l]

/-- Stability of the ORDER BY model: restricted to any single key
value, the sorted output lists the rows in their original insertion
order. -/
theorem sortByKey_filter_key {α : Type} (k : α → Int) (c : Int) :
    ∀ l : List α,
      (sortByKey k l).filter (fun x => k x == c) = l.filter (fun x => k x == c)
  | [] => rfl
  | a :: l => by
    show (List.orderedInsert _ a (sortByKey k l)).filter _ = _
    by_cases hpa : k a = c
    · rw [filter_orderedInsert_pos k (fun x => k x == c) a (by simp [hpa])
        (fun b hb => by simp; omega) (sortByKey k l)]
      rw [sortByKey_filter_key k c l]
      simp [List.filter, hpa]
    · rw [filter_orderedInsert_neg k (fun x => k x == c) a (by simp [hpa]) (sortByKey k l)]
      rw [sortByKey_filter_key k c l]
      have hba : (k a == c) = false := by simp [hpa]
      simp [List.filter, hba]

/-! ### db-sync-process-monitor.py (CardanoMonitor keyed by slot number) -/

namespace ProcessMonitor

/-- The dict built by CardanoMonitor.get_memory_details: every field is
a plain number because missing platform attributes are read with
getattr(obj, field, 0), substituting 0. -/
structure MemDetails where
  rss : Rat
  vms : Rat
  uss : Rat
  pss : Rat
  swap : Rat
  shared : Rat
deriving DecidableEq

/-- CardanoMonitor.get_memory_details.  The argument is none when the
body raises (process vanished, permission denied): the except clause
returns None.  Missing uss/pss/swap/shared attributes become 0 via
getattr defaults. -/
def get_memory_details : Option (MemoryInfo × MemoryFullInfo) → Option MemDetails
  | none => none
  | some (mi, mfi) =>
    some { rss := mi.rss / 1024 ^ 2
           vms := mi.vms / 1024 ^ 2
           uss := mfi.uss.getD 0 / 1024 ^ 2
           pss := mfi.pss.getD 0 / 1024 ^ 2
           swap := mfi.swap.getD 0 / 1024 ^ 2
           shared := mi.shared.getD 0 / 1024 ^ 2 }

/-- The dict built by CardanoMonitor.get_cpu_details; interrupts is
hardcoded to None in the source. -/
structure CpuDetails where
  cpu_percent : Rat
  user_time : Rat
  system_time : Rat
  children_user : Rat
  children_system : Rat
  iowait : Rat
  ctx_switches : Int
  interrupts : Option Int
deriving DecidableEq

/-- CardanoMonitor.get_cpu_details; none argument is the except path. -/
def get_cpu_details : Option CpuReading → Option CpuDetails
  | none => none
  | some r =>
    some { cpu_percent := r.percent
           user_time := r.times.user
           system_time := r.times.system
           children_user := r.times.children_user.getD 0
           children_system := r.times.children_system.getD 0
           iowait := r.times.iowait.getD 0
           ctx_switches := r.ctx.voluntary + r.ctx.involuntary
           interrupts := none }

/-- A row of the sqlite memory_metrics table (all columns nullable). -/
structure MemRow where
  slot_no : Int
  rss : Option Rat
  vms : Option Rat
  uss : Option Rat
  pss : Option Rat
  swap : Option Rat
  shared : Option Rat
  version : String
deriving DecidableEq

/-- A row of the sqlite cpu_metrics table (all columns nullable). -/
structure CpuRow where
  slot_no : Int
  cpu_percent : Option Rat
  user_time : Option Rat
  system_time : Option Rat
  children_user : Option Rat
  children_system : Option Rat
  iowait : Option Rat
  ctx_switches : Option Int
  interrupts : Option Int
  version : String
deriving DecidableEq

/-- A row of the sqlite db_sync_version table. -/
structure VerRow where
  timestamp : Nat
  version : String
deriving DecidableEq

/-- The sqlite file contents: the three tables in insertion order. -/
structure Store where
  memory_metrics : List MemRow
  cpu_metrics : List CpuRow
  db_sync_version : List VerRow
deriving DecidableEq

/-- CardanoMonitor.init_db: CREATE TABLE IF NOT EXISTS, so a fresh
file starts with three empty tables. -/
def init_db : Store := { memory_metrics := [], cpu_metrics := [], db_sync_version := [] }

/-- INSERT INTO memory_metrics VALUES (...): the table has no
constraints, so the row is always appended. -/
def insertMemory (st : Store) (r : MemRow) : Store :=
  { st with memory_metrics := st.memory_metrics ++ [r] }

/-- INSERT INTO cpu_metrics VALUES (...). -/
def insertCpu (st : Store) (r : CpuRow) : Store :=
  { st with cpu_metrics := st.cpu_metrics ++ [r] }

/-- INSERT INTO db_sync_version VALUES (...). -/
def insertVersion (st : Store) (r : VerRow) : Store :=
  { st with db_sync_version := st.db_sync_version ++ [r] }

/-- CardanoMonitor.get_db_sync_version. -/
def get_db_sync_version (db_sync_ver env : String) : String :=
  "cardano-db-sync " ++ db_sync_ver ++ " " ++ env

/-- External observations made during one iteration of the log_metrics
loop: the Postgres marker query, process discovery, the platform
metric reads for the found process, and the sync-percent query. -/
structure TickEnv where
  slot : Option Int
  procFound : Bool
  memReading : Option (MemoryInfo × MemoryFullInfo)
  cpuReading : Option CpuReading
  syncPercent : Option Rat
  now : Nat
deriving DecidableEq

/-- The printed one-line status output of a completed tick. -/
structure StatusLine where
  slot : Int
  syncPercent : Rat
  cpu : StatusField
  rss : StatusField
deriving DecidableEq

/-- How one iteration of the log_metrics while-loop ends. -/
inductive TickOutcome where
  /-- get_slot_no returned None: sleep and retry the tick from the
  start; nothing was written. -/
  | retryNoMarker (sleptSeconds : Nat)
  /-- The status line was printed and the loop slept before the next
  tick. -/
  | completed (line : StatusLine) (sleptSeconds : Nat)
  /-- The final print raised TypeError: the f-string formatted a None
  sync percent with the .2f spec; the sampling thread dies here. -/
  | raisedTypeError
deriving DecidableEq

/-- The fixed sampling interval: time.sleep(10). -/
def SLEEP_SECONDS : Nat := 10

/-- One iteration of the while-loop body of CardanoMonitor.log_metrics,
given the external observations of that tick.  Mirrors the source
order: marker query (None means sleep and continue), process lookup,
the two extractions (only attempted when a process was found),
conditional memory/cpu INSERTs, unconditional version INSERT, then the
status print, which raises TypeError when sync percent is None. -/
def log_metrics_tick (ver : String) (env : TickEnv) (st : Store) : Store × TickOutcome :=
  match env.slot with
  | none => (st, TickOutcome.retryNoMarker SLEEP_SECONDS)
  | some slot =>
    let mem := if env.procFound then get_memory_details env.memReading else none
    let cpu := if env.procFound then get_cpu_details env.cpuReading else none
    let st1 := match mem with
      | some m =>
        insertMemory st
          { slot_no := slot, rss := some m.rss, vms := some m.vms, uss := some m.uss,
            pss := some m.pss, swap := some m.swap, shared := some m.shared, version := ver }
      | none => st
    let st2 := match cpu with
      | some c =>
        insertCpu st1
          { slot_no := slot, cpu_percent := some c.cpu_percent, user_time := some c.user_time,
            system_time := some c.system_time, children_user := some c.children_user,
            children_system := some c.children_system, iowait := some c.iowait,
            ctx_switches := some c.ctx_switches, interrupts := c.interrupts, version := ver }
      | none => st1
    let st3 := insertVersion st2 { timestamp := env.now, version := ver }
    match env.syncPercent with
    | none => (st3, TickOutcome.raisedTypeError)
    | some sp =>
      (st3,
        TickOutcome.completed
          { slot := slot, syncPercent := sp,
            cpu := match cpu with
              | some c => StatusField.value c.cpu_percent
              | none => StatusField.na,
            rss := match mem with
              | some m => StatusField.value m.rss
              | none => StatusField.na }
          SLEEP_SECONDS)

/-- Projected row of SELECT slot_no, rss, version FROM memory_metrics. -/
structure MemPoint where
  slot_no : Int
  rss : Option Rat
  version : String
deriving DecidableEq

/-- Projected row of SELECT slot_no, cpu_percent, version FROM
cpu_metrics. -/
structure CpuPoint where
  slot_no : Int
  cpu_percent : Option Rat
  version : String
deriving DecidableEq

def memPoint (r : MemRow) : MemPoint :=
  { slot_no := r.slot_no, rss := r.rss, version := r.version }

def cpuPoint (r : CpuRow) : CpuPoint :=
  { slot_no := r.slot_no, cpu_percent := r.cpu_percent, version := r.version }

/-- SELECT slot_no, rss, version FROM memory_metrics WHERE version IN
(tags) ORDER BY slot_no — the memory query shared by
CardanoMonitor.plot_metrics and regenerate-plots load_metrics. -/
def load_memory (st : Store) (tags : List String) : List MemPoint :=
  sortByKey (fun p => p.slot_no)
    ((st.memory_metrics.filter (fun r => tags.contains r.version)).map memPoint)

/-- SELECT slot_no, cpu_percent, version FROM cpu_metrics WHERE
version IN (tags) ORDER BY slot_no. -/
def load_cpu (st : Store) (tags : List String) : List CpuPoint :=
  sortByKey (fun p => p.slot_no)
    ((st.cpu_metrics.filter (fun r => tags.contains r.version)).map cpuPoint)

/-- SQLite dedup pass of SELECT DISTINCT version: scan in insertion
order, keeping the first row of each distinct version. -/
def distinctKeepFirst (seen : List String) : List VerRow → List VerRow
  | [] => []
  | r :: l =>
    if seen.contains r.version then distinctKeepFirst seen l
    else r :: distinctKeepFirst (r.version :: seen) l

/-- SELECT DISTINCT version FROM db_sync_version ORDER BY timestamp
DESC — shared by regenerate-plots load_versions and the interactive
listing in CardanoMonitor.run.  The surviving first-occurrence rows
are sorted by timestamp descending. -/
def load_versions (log : List VerRow) : List String :=
  (sortByKey (fun r => -(r.timestamp : Int)) (distinctKeepFirst [] log)).map VerRow.version

/-- The timestamp of the first version record carrying the given tag
(0 when the tag was never recorded). -/
def firstStamp (log : List VerRow) (v : String) : Nat :=
  ((log.find? (fun r => r.version == v)).map VerRow.timestamp).getD 0

/-- The greatest timestamp among the version records carrying the
given tag (0 when the tag was never recorded). -/
def latestStamp (log : List VerRow) (v : String) : Nat :=
  ((log.filter (fun r => r.version == v)).map VerRow.timestamp).foldr max 0

end ProcessMonitor

/-! ### Operator version selection (regenerate-plots.py main and
CardanoMonitor.run) -/

namespace Selection

/-- Python list indexing xs[j]: non-negative j indexes from the front,
negative j indexes from the end (xs[len + j]); anything else raises
IndexError, modelled as none. -/
def pyIndex (xs : List String) (j : Int) : Option String :=
  if 0 ≤ j then xs[j.toNat]?
  else if 0 ≤ j + (xs.length : Int) then xs[(j + (xs.length : Int)).toNat]?
  else none

/-- A Python list comprehension whose element expression may raise:
the first exception aborts the whole comprehension (none). -/
def listCompr {β γ : Type} (f : β → Option γ) : List β → Option (List γ)
  | [] => some []
  | a :: l =>
    match f a with
    | none => none
    | some c =>
      match listCompr f l with
      | none => none
      | some cs => some (c :: cs)

/-- The selection logic of regenerate-plots main (and, token for
token, of the un-guarded comprehension in CardanoMonitor.run): the
operator input is already split on commas; each token is the result
of int(x.strip()), with none marking a ValueError.  First
comprehension: idxs = [int(x) - 1 for x in tokens]; second:
chosen = [versions[i] for i in idxs].  In regenerate-plots a none
outcome is caught, reported as Invalid selection and the function
returns; in CardanoMonitor.run the same exception is uncaught and
terminates the interactive loop. -/
def selectVersions (versions : List String) (tokens : List (Option Int)) :
    Option (List String) :=
  match listCompr id tokens with
  | none => none
  | some ints => listCompr (pyIndex versions) (ints.map (fun i => i - 1))

end Selection

/-! ### simple-db-sync-monitor.py (CardanoMonitor keyed by timestamp) -/

namespace SimpleMonitor

/-- The dict built by get_memory_details of the simple monitor:
uss/pss/swap stay None when the platform lacks them (hasattr guards);
rss, vms and shared are accessed directly. -/
structure MemDetails where
  rss : Rat
  vms : Rat
  uss : Option Rat
  pss : Option Rat
  swap : Option Rat
  shared : Rat
deriving DecidableEq

/-- get_memory_details of the simple monitor.  A none argument is a
psutil error caught by the except clause.  Accessing mem_info.shared
on a platform without it raises AttributeError, which the same except
clause turns into None for the whole sample. -/
def get_memory_details : Option (MemoryInfo × MemoryFullInfo) → Option MemDetails
  | none => none
  | some (mi, mfi) =>
    match mi.shared with
    | none => none
    | some sh =>
      some { rss := mi.rss / 1024 / 1024
             vms := mi.vms / 1024 / 1024
             uss := mfi.uss.map (fun u => u / 1024 / 1024)
             pss := mfi.pss.map (fun u => u / 1024 / 1024)
             swap := mfi.swap.map (fun u => u / 1024 / 1024)
             shared := sh / 1024 / 1024 }

/-- The dict built by get_cpu_details of the simple monitor: iowait is
read with getattr(cpu_times, field, None) so a missing field stays
None; interrupts is hardcoded to None. -/
structure CpuDetails where
  cpu_percent : Rat
  cpu_percent_normalized : Rat
  user_time : Rat
  system_time : Rat
  children_user : Rat
  children_system : Rat
  iowait : Option Rat
  ctx_switches : Int
  interrupts : Option Int
deriving DecidableEq

/-- psutil.cpu_count() or 1: None and 0 are falsy in Python. -/
def orOne : Option Nat → Nat
  | none => 1
  | some 0 => 1
  | some (n + 1) => n + 1

/-- get_cpu_details of the simple monitor. -/
def get_cpu_details (cpuCountRaw : Option Nat) : Option CpuReading → Option CpuDetails
  | none => none
  | some r =>
    some { cpu_percent := r.percent
           cpu_percent_normalized := r.percent / (orOne cpuCountRaw : Nat)
           user_time := r.times.user
           system_time := r.times.system
           children_user := r.times.children_user.getD 0
           children_system := r.times.children_system.getD 0
           iowait := r.times.iowait
           ctx_switches := r.ctx.voluntary + r.ctx.involuntary
           interrupts := none }

/-- A row of the simple monitor memory_metrics table. -/
structure MemRow where
  timestamp : Nat
  rss : Rat
  vms : Rat
  uss : Option Rat
  pss : Option Rat
  swap : Option Rat
  shared : Rat
  process : String
deriving DecidableEq

/-- A row of the simple monitor cpu_metrics table
(cpu_percent_normalized is computed but never stored). -/
structure CpuRow where
  timestamp : Nat
  cpu_percent : Rat
  user_time : Rat
  system_time : Rat
  children_user : Rat
  children_system : Rat
  iowait : Option Rat
  ctx_switches : Int
  interrupts : Option Int
  process : String
deriving DecidableEq

/-- The simple monitor sqlite file contents. -/
structure Store where
  memory_metrics : List MemRow
  cpu_metrics : List CpuRow
deriving DecidableEq

/-- init_db of the simple monitor. -/
def init_db : Store := { memory_metrics := [], cpu_metrics := [] }

/-- The status line of the simple monitor: timestamp plus CPU and RSS
fields, each with an N/A placeholder when its sample is missing. -/
structure StatusLine where
  timestamp : Nat
  cpu : StatusField
  rss : StatusField
deriving DecidableEq

/-- External observations made during one iteration of the simple
monitor log_metrics loop. -/
structure TickEnv where
  now : Nat
  procFound : Bool
  memReading : Option (MemoryInfo × MemoryFullInfo)
  cpuReading : Option CpuReading
  cpuCountRaw : Option Nat
deriving DecidableEq

/-- One iteration of the while-loop body of the simple monitor
log_metrics.  When no process is found nothing is written and no
status line is printed; otherwise memory and cpu samples are inserted
independently when extraction succeeded, and the status line is
printed with N/A placeholders for missing samples (it never raises:
both fields use a conditional expression). -/
def log_metrics_tick (env : TickEnv) (st : Store) : Store × Option StatusLine :=
  if env.procFound then
    let mem_data := get_memory_details env.memReading
    let cpu_data := get_cpu_details env.cpuCountRaw env.cpuReading
    let st1 := match mem_data with
      | some m =>
        { st with memory_metrics := st.memory_metrics ++
            [{ timestamp := env.now, rss := m.rss, vms := m.vms, uss := m.uss,
               pss := m.pss, swap := m.swap, shared := m.shared,
               process := "cardano-db-sync" }] }
      | none => st
    let st2 := match cpu_data with
      | some c =>
        { st1 with cpu_metrics := st1.cpu_metrics ++
            [{ timestamp := env.now, cpu_percent := c.cpu_percent,
               user_time := c.user_time, system_time := c.system_time,
               children_user := c.children_user, children_system := c.children_system,
               iowait := c.iowait, ctx_switches := c.ctx_switches,
               interrupts := c.interrupts, process := "cardano-db-sync" }] }
      | none => st1
    (st2,
      some { timestamp := env.now,
             cpu := match cpu_data with
               | some c => StatusField.value c.cpu_percent
               | none => StatusField.na,
             rss := match mem_data with
               | some m => StatusField.value m.rss
               | none => StatusField.na })
  else (st, none)

/-- The memory read-back of plot_metrics: rows whose timestamp falls
inside the last-hours window (datetime(timestamp) >= cutoff). -/
def load_memory_window (st : Store) (cutoff : Nat) : List MemRow :=
  st.memory_metrics.filter (fun r => cutoff ≤ r.timestamp)

end SimpleMonitor

/-! ### Claim theorems -/

/-- Concrete platform readings for C1: uss, pss, swap and shared are
all unexposed; rss is 100 MiB and vms 200 MiB. -/
def memoryInfoC1 : MemoryInfo := { rss := 104857600, vms := 209715200, shared := none }

def memoryFullInfoC1 : MemoryFullInfo := { uss := none, pss := none, swap := none }

def envC1 : ProcessMonitor.TickEnv :=
  { slot := some 5, procFound := true, memReading := some (memoryInfoC1, memoryFullInfoC1),
    cpuReading := none, syncPercent := some 50, now := 1 }

/-- C1 is false for db-sync-process-monitor: on a tick whose platform
readings lack uss/pss/swap/shared, the extractor substitutes 0 via
getattr defaults and the stored memory row carries some 0 in each of
those columns, not null. -/
theorem C1_counterexample_zero_coercion :
    ((ProcessMonitor.log_metrics_tick "v" envC1 ProcessMonitor.init_db).1.memory_metrics.map
        (fun r => (r.uss, r.pss, r.swap, r.shared)))
      = [(some 0, some 0, some 0, some 0)]
    ∧ (some (0 : Rat)) ≠ (none : Option Rat) := by
  refine ⟨?_, by simp⟩
  simp [ProcessMonitor.log_metrics_tick, envC1, memoryInfoC1, memoryFullInfoC1,
    ProcessMonitor.get_memory_details, ProcessMonitor.get_cpu_details,
    ProcessMonitor.init_db, ProcessMonitor.insertMemory, ProcessMonitor.insertCpu,
    ProcessMonitor.insertVersion]

/-- C1 (amended): in simple-db-sync-monitor, a tick whose platform
readings lack uss/pss/swap (but expose shared) appends a memory row
whose uss/pss/swap columns are null, and reading the table back
returns that identical record with the nulls preserved, never coerced
to zero. -/
theorem C1_amended_nulls_roundtrip (mi : MemoryInfo) (mfi : MemoryFullInfo) (sh : Rat)
    (env : SimpleMonitor.TickEnv) (st : SimpleMonitor.Store) (cutoff : Nat)
    (hproc : env.procFound = true)
    (hread : env.memReading = some (mi, mfi))
    (hsh : mi.shared = some sh)
    (huss : mfi.uss = none) (hpss : mfi.pss = none) (hswap : mfi.swap = none)
    (hwin : cutoff ≤ env.now) :
    SimpleMonitor.load_memory_window (SimpleMonitor.log_metrics_tick env st).1 cutoff
      = SimpleMonitor.load_memory_window st cutoff ++
        [{ timestamp := env.now, rss := mi.rss / 1024 / 1024, vms := mi.vms / 1024 / 1024,
           uss := none, pss := none, swap := none, shared := sh / 1024 / 1024,
           process := "cardano-db-sync" }] := by
  unfold SimpleMonitor.log_metrics_tick
  rw [hproc, hread]
  simp only [SimpleMonitor.get_memory_details, hsh, huss, hpss, hswap, Option.map_none]
  cases hc : SimpleMonitor.get_cpu_details env.cpuCountRaw env.cpuReading <;>
    simp [SimpleMonitor.load_memory_window, List.filter_append, hwin]

/-- Concrete witness inputs for the amended C1. -/
def memoryInfoC1W : MemoryInfo :=
  { rss := 104857600, vms := 209715200, shared := some 52428800 }

def memoryFullInfoC1W : MemoryFullInfo := { uss := none, pss := none, swap := none }

def envC1W : SimpleMonitor.TickEnv :=
  { now := 3, procFound := true, memReading := some (memoryInfoC1W, memoryFullInfoC1W),
    cpuReading := none, cpuCountRaw := none }

/-- C1 witness: the amended round trip evaluated on a concrete tick. -/
theorem C1_amended_witness :
    SimpleMonitor.load_memory_window
        (SimpleMonitor.log_metrics_tick envC1W SimpleMonitor.init_db).1 0
      = [{ timestamp := 3, rss := 100, vms := 200, uss := none, pss := none, swap := none,
           shared := 50, process := "cardano-db-sync" }] := by
  have h := C1_amended_nulls_roundtrip memoryInfoC1W memoryFullInfoC1W 52428800
    envC1W SimpleMonitor.init_db 0 rfl rfl rfl rfl rfl rfl (Nat.zero_le _)
  rw [h]
  simp [SimpleMonitor.load_memory_window, SimpleMonitor.init_db, envC1W, memoryInfoC1W]
  norm_num

/-- Concrete tick observations for C4: the marker is available, both
extraction channels failed, and the sync-percent query returned None. -/
def envC4 : ProcessMonitor.TickEnv :=
  { slot := some 5, procFound := true, memReading := none, cpuReading := none,
    syncPercent := none, now := 7 }

/-- C4 (code bug): a tick that reaches the write phase with an
unavailable sync percent does not print a status line with a
placeholder — the f-string formats None with the .2f spec and raises
TypeError (after the version record was already inserted), killing
the sampling thread.  CPU and RSS do get N/A placeholders, but the
sync-percent field has none. -/
theorem C4_sync_none_raises :
    ProcessMonitor.log_metrics_tick
        (ProcessMonitor.get_db_sync_version "13.6.0.5" "mainnet") envC4 ProcessMonitor.init_db
      = ({ memory_metrics := [], cpu_metrics := [],
           db_sync_version := [{ timestamp := 7, version := "cardano-db-sync 13.6.0.5 mainnet" }] },
         ProcessMonitor.TickOutcome.raisedTypeError) := rfl

/-- Concrete tick observations for C5: no matching process, and the
sync-percent query also returned None that tick. -/
def envC5 : ProcessMonitor.TickEnv :=
  { slot := some 9, procFound := false, memReading := none, cpuReading := none,
    syncPercent := none, now := 8 }

/-- C5 (code bug): on a tick where the process is not found, no memory
and no cpu sample is written — but the loop does not always proceed
without raising: when the sync percent is also unavailable that tick,
the status line raises TypeError and the sampling thread dies. -/
theorem C5_notfound_skips_but_can_raise :
    (ProcessMonitor.log_metrics_tick "v" envC5 ProcessMonitor.init_db).1.memory_metrics = []
    ∧ (ProcessMonitor.log_metrics_tick "v" envC5 ProcessMonitor.init_db).1.cpu_metrics = []
    ∧ (ProcessMonitor.log_metrics_tick "v" envC5 ProcessMonitor.init_db).2
        = ProcessMonitor.TickOutcome.raisedTypeError :=
  ⟨rfl, rfl, rfl⟩

/-- C6: when the progress marker is unavailable, the tick writes no
memory sample, no cpu sample and no version record (the store is
returned unchanged), sleeps the fixed 10-second interval and retries
from the start, continuing the loop. -/
theorem C6_no_marker_skips_and_retries (ver : String) (env : ProcessMonitor.TickEnv)
    (st : ProcessMonitor.Store) (h : env.slot = none) :
    ProcessMonitor.log_metrics_tick ver env st
      = (st, ProcessMonitor.TickOutcome.retryNoMarker ProcessMonitor.SLEEP_SECONDS) := by
  unfold ProcessMonitor.log_metrics_tick
  rw [h]

/-- Concrete tick observations for the C6 witness. -/
def envC6 : ProcessMonitor.TickEnv :=
  { slot := none, procFound := true, memReading := none, cpuReading := none,
    syncPercent := some 1, now := 2 }

/-- C6 witness: the retry behaviour evaluated on a concrete tick. -/
theorem C6_witness :
    ProcessMonitor.log_metrics_tick "v" envC6 ProcessMonitor.init_db
      = (ProcessMonitor.init_db, ProcessMonitor.TickOutcome.retryNoMarker ProcessMonitor.SLEEP_SECONDS) :=
  C6_no_marker_skips_and_retries "v" envC6 ProcessMonitor.init_db rfl

namespace ProcessMonitor

/-- Every row surviving the DISTINCT dedup pass is the first record of
its version in the scanned log (and its version was not already
seen). -/
theorem distinctKeepFirst_spec :
    ∀ (l : List VerRow) (seen : List String) (r : VerRow),
      r ∈ distinctKeepFirst seen l →
      r.version ∉ seen ∧ l.find? (fun x => x.version == r.version) = some r := by
  intro l
  induction l with
  | nil => intro seen r hr; simp [distinctKeepFirst] at hr
  | cons a l ih =>
    intro seen r hr
    rw [distinctKeepFirst] at hr
    by_cases ha : a.version ∈ seen
    · rw [if_pos (by simpa using ha)] at hr
      obtain ⟨h1, h2⟩ := ih seen r hr
      have hav : (a.version == r.version) = false := by
        simp only [beq_eq_false_iff_ne, ne_eq]
        intro he
        exact h1 (he ▸ ha)
      exact ⟨h1, by simp [List.find?_cons, hav, h2]⟩
    · rw [if_neg (by simpa using ha)] at hr
      rcases List.mem_cons.mp hr with hr | hr
      · subst hr
        exact ⟨ha, by simp [List.find?_cons]⟩
      · obtain ⟨h1, h2⟩ := ih (a.version :: seen) r hr
        have hne : (a.version == r.version) = false := by
          simp only [beq_eq_false_iff_ne, ne_eq]
          intro he
          exact h1 (List.mem_cons.mpr (Or.inl he.symm))
        refine ⟨fun hmem => h1 (List.mem_cons.mpr (Or.inr hmem)), ?_⟩
        simp [List.find?_cons, hne, h2]

/-- The versions surviving the dedup pass are exactly the versions of
the scanned log that were not already seen. -/
theorem distinctKeepFirst_mem_version :
    ∀ (l : List VerRow) (seen : List String) (v : String),
      v ∈ (distinctKeepFirst seen l).map VerRow.version ↔
        (∃ r ∈ l, r.version = v) ∧ v ∉ seen := by
  intro l
  induction l with
  | nil => simp [distinctKeepFirst]
  | cons a l ih =>
    intro seen v
    rw [distinctKeepFirst]
    by_cases ha : a.version ∈ seen
    · rw [if_pos (by simpa using ha)]
      rw [ih seen v]
      constructor
      · rintro ⟨⟨r, hr, hrv⟩, hv⟩
        exact ⟨⟨r, List.mem_cons_of_mem _ hr, hrv⟩, hv⟩
      · rintro ⟨⟨r, hr, hrv⟩, hv⟩
        rcases List.mem_cons.mp hr with h | h
        · subst h
          exact absurd (hrv ▸ ha) hv
        · exact ⟨⟨r, h, hrv⟩, hv⟩
    · rw [if_neg (by simpa using ha)]
      simp only [List.map_cons, List.mem_cons]
      rw [ih (a.version :: seen) v]
      constructor
      · rintro (h | ⟨⟨r, hr, hrv⟩, hv⟩)
        · subst h
          exact ⟨⟨a, Or.inl rfl, rfl⟩, ha⟩
        · refine ⟨⟨r, Or.inr hr, hrv⟩, fun hm => hv (List.mem_cons_of_mem _ hm)⟩
      · rintro ⟨⟨r, hr, hrv⟩, hv⟩
        by_cases hva : v = a.version
        · exact Or.inl hva
        · right
          rcases hr with h | h
          · subst h
            exact absurd hrv.symm hva
          · refine ⟨⟨r, h, hrv⟩, fun hm => ?_⟩
            rcases List.mem_cons.mp hm with h2 | h2
            · exact hva h2
            · exact hv h2

/-- The dedup pass emits each version at most once. -/
theorem distinctKeepFirst_nodup :
    ∀ (l : List VerRow) (seen : List String),
      ((distinctKeepFirst seen l).map VerRow.version).Nodup := by
  intro l
  induction l with
  | nil => intro seen; simp [distinctKeepFirst]
  | cons a l ih =>
    intro seen
    rw [distinctKeepFirst]
    by_cases ha : a.version ∈ seen
    · rw [if_pos (by simpa using ha)]
      exact ih seen
    · rw [if_neg (by simpa using ha)]
      simp only [List.map_cons, List.nodup_cons]
      refine ⟨fun hmem => ?_, ih (a.version :: seen)⟩
      rw [distinctKeepFirst_mem_version l (a.version :: seen) a.version] at hmem
      exact hmem.2 (List.mem_cons_self _ _)

end ProcessMonitor

/-- C2 (amended): distinct_versions returns the distinct tags with no
duplicates, containing exactly the tags ever appended as version
records, ordered descending by the time each tag was FIRST recorded
(SQLite DISTINCT keeps the first row of each tag; a tag re-recorded
later does not move up). -/
theorem C2_amended_distinct_versions (log : List ProcessMonitor.VerRow) :
    (ProcessMonitor.load_versions log).Nodup
    ∧ (∀ v, v ∈ ProcessMonitor.load_versions log ↔ ∃ r ∈ log, r.version = v)
    ∧ List.Pairwise
        (fun u v => ProcessMonitor.firstStamp log v ≤ ProcessMonitor.firstStamp log u)
        (ProcessMonitor.load_versions log) := by
  have hperm :
      List.Perm
        ((sortByKey (fun r => -(r.timestamp : Int)) (ProcessMonitor.distinctKeepFirst [] log)).map
          ProcessMonitor.VerRow.version)
        ((ProcessMonitor.distinctKeepFirst [] log).map ProcessMonitor.VerRow.version) :=
    (sortByKey_perm _ _).map _
  refine ⟨?_, ?_, ?_⟩
  · rw [ProcessMonitor.load_versions, hperm.nodup_iff]
    exact ProcessMonitor.distinctKeepFirst_nodup log []
  · intro v
    rw [ProcessMonitor.load_versions, hperm.mem_iff,
      ProcessMonitor.distinctKeepFirst_mem_version log [] v]
    simp
  · rw [ProcessMonitor.load_versions, List.pairwise_map]
    have hsorted :
        List.Pairwise (fun a b : ProcessMonitor.VerRow => -(a.timestamp : Int) ≤ -(b.timestamp : Int))
          (sortByKey (fun r => -(r.timestamp : Int)) (ProcessMonitor.distinctKeepFirst [] log)) :=
      sortByKey_sorted _ _
    refine hsorted.imp_of_mem ?_
    intro a b hma hmb hle
    have hda : a ∈ ProcessMonitor.distinctKeepFirst [] log := ((sortByKey_perm _ _).mem_iff).mp hma
    have hdb : b ∈ ProcessMonitor.distinctKeepFirst [] log := ((sortByKey_perm _ _).mem_iff).mp hmb
    have hfa := (ProcessMonitor.distinctKeepFirst_spec log [] a hda).2
    have hfb := (ProcessMonitor.distinctKeepFirst_spec log [] b hdb).2
    rw [ProcessMonitor.firstStamp, ProcessMonitor.firstStamp, hfa, hfb]
    show b.timestamp ≤ a.timestamp
    omega

/-- The interleaved version log refuting the most-recent-first reading
of C2: v1 at times 1 and 3, v2 at time 2. -/
def logC2 : List ProcessMonitor.VerRow :=
  [{ timestamp := 1, version := "v1" }, { timestamp := 2, version := "v2" },
   { timestamp := 3, version := "v1" }]

/-- C2 is false as stated: with v1 recorded at times 1 and 3 and v2 at
time 2, the tag recorded most recently is v1, yet distinct_versions
returns v2 first (each tag is placed by its first record, because
SQLite DISTINCT keeps the first row per tag). -/
theorem C2_counterexample_not_most_recent :
    ProcessMonitor.load_versions logC2 = ["v2", "v1"]
    ∧ ProcessMonitor.latestStamp logC2 "v1" = 3
    ∧ ProcessMonitor.latestStamp logC2 "v2" = 2
    ∧ ¬ List.Pairwise
        (fun u v => ProcessMonitor.latestStamp logC2 v ≤ ProcessMonitor.latestStamp logC2 u)
        (ProcessMonitor.load_versions logC2) := by
  refine ⟨by decide, by decide, by decide, ?_⟩
  intro h
  rw [show ProcessMonitor.load_versions logC2 = ["v2", "v1"] from by decide] at h
  have := List.rel_of_pairwise_cons h (List.mem_cons_self _ _)
  revert this
  decide

namespace Selection

/-- A comprehension aborts as a whole when any element raises. -/
theorem listCompr_eq_none {β γ : Type} (f : β → Option γ) :
    ∀ (l : List β) (b : β), b ∈ l → f b = none → listCompr f l = none := by
  intro l
  induction l with
  | nil => intro b hb hf; simp at hb
  | cons a l ih =>
    intro b hb hf
    rcases List.mem_cons.mp hb with h | h
    · subst h
      rw [listCompr, hf]
    · cases hfa : f a with
      | none => simp [listCompr, hfa]
      | some c => simp [listCompr, hfa, ih b h hf]

/-- When the int() pass succeeds, the tokens were exactly the parsed
integers. -/
theorem listCompr_id_eq_some {γ : Type} :
    ∀ (l : List (Option γ)) (res : List γ),
      listCompr id l = some res → l = res.map some := by
  intro l
  induction l with
  | nil =>
    intro res h
    simp [listCompr] at h
    simp [← h]
  | cons a l ih =>
    intro res h
    cases a with
    | none => simp [listCompr] at h
    | some c =>
      cases hl : listCompr id l with
      | none => simp [listCompr, hl] at h
      | some cs =>
        simp [listCompr, hl] at h
        rw [← h, List.map_cons, ← ih cs hl]

/-- Python indexing raises IndexError exactly for positions at or past
the length and for negative positions reaching before the start. -/
theorem pyIndex_eq_none {xs : List String} {j : Int}
    (h : (xs.length : Int) ≤ j ∨ j + (xs.length : Int) < 0) : pyIndex xs j = none := by
  rcases h with h | h
  · have h0 : 0 ≤ j := by omega
    rw [pyIndex, if_pos h0]
    apply List.getElem?_eq_none
    omega
  · have h0 : ¬ 0 ≤ j := by omega
    have h1 : ¬ 0 ≤ j + (xs.length : Int) := by omega
    rw [pyIndex, if_neg h0, if_neg h1]

end Selection

/-- The version log used to refute C3: v1 then v2, so the listed order
is v2 first. -/
def logC3 : List ProcessMonitor.VerRow :=
  [{ timestamp := 1, version := "v1" }, { timestamp := 2, version := "v2" }]

/-- C3 is false as stated: with two listed versions, the operator
index 0 lies outside [1, 2], yet the selection is not rejected —
Python negative indexing turns 0 - 1 = -1 into the last listed
version, silently accepting the selection. -/
theorem C3_counterexample_index_zero_accepted :
    ProcessMonitor.load_versions logC3 = ["v2", "v1"]
    ∧ Selection.selectVersions (ProcessMonitor.load_versions logC3) [some 0] = some ["v1"]
    ∧ ¬ ((1 : Int) ≤ 0 ∧ (0 : Int) ≤ ((ProcessMonitor.load_versions logC3).length : Int)) :=
  ⟨by decide, by decide, by decide⟩

/-- C3 (amended): a selection containing a non-numeric token or an
index i with i > len(list_versions()) or i ≤ -len is rejected as a
whole (no partial selection); in regenerate-plots the rejection is
reported and non-fatal and nothing is ever written to the store,
while indices in [1-len, 0] are silently accepted through Python
negative indexing, and in db-sync-process-monitor the same failure is
an uncaught exception. -/
theorem C3_amended_selection_rejected (versions : List String) (tokens : List (Option Int))
    (h : none ∈ tokens ∨ ∃ i : Int, some i ∈ tokens ∧
        ((versions.length : Int) < i ∨ i + (versions.length : Int) ≤ 0)) :
    Selection.selectVersions versions tokens = none := by
  rcases h with h | ⟨i, hi, hb⟩
  · rw [Selection.selectVersions, Selection.listCompr_eq_none id tokens none h rfl]
  · rw [Selection.selectVersions]
    cases hl : Selection.listCompr id tokens with
    | none => rfl
    | some ints =>
      have hmem : i ∈ ints := by
        have hts := Selection.listCompr_id_eq_some tokens ints hl
        rw [hts] at hi
        rcases List.mem_map.mp hi with ⟨x, hx, hxe⟩
        rw [Option.some.injEq] at hxe
        exact hxe ▸ hx
      refine Selection.listCompr_eq_none _ _ (i - 1) ?_ ?_
      · exact List.mem_map.mpr ⟨i, hmem, rfl⟩
      · apply Selection.pyIndex_eq_none
        omega

/-- C3 witness: index 3 with only two listed versions is rejected. -/
theorem C3_amended_witness :
    Selection.selectVersions ["v2", "v1"] [some 3] = none :=
  C3_amended_selection_rejected ["v2", "v1"] [some 3]
    (Or.inr ⟨3, by decide, by decide⟩)

namespace ProcessMonitor

/-- Appending a batch of memory samples one INSERT at a time, as
successive ticks do. -/
def insertMemoryAll (st : Store) (rows : List MemRow) : Store :=
  rows.foldl insertMemory st

/-- Appending a batch of cpu samples one INSERT at a time. -/
def insertCpuAll (st : Store) (rows : List CpuRow) : Store :=
  rows.foldl insertCpu st

theorem insertMemoryAll_memory :
    ∀ (rows : List MemRow) (st : Store),
      (insertMemoryAll st rows).memory_metrics = st.memory_metrics ++ rows
  | [], st => by simp [insertMemoryAll]
  | r :: rows, st => by
    have hstep : insertMemoryAll st (r :: rows) = insertMemoryAll (insertMemory st r) rows := rfl
    rw [hstep, insertMemoryAll_memory rows (insertMemory st r)]
    simp [insertMemory]

theorem insertMemoryAll_cpu :
    ∀ (rows : List MemRow) (st : Store),
      (insertMemoryAll st rows).cpu_metrics = st.cpu_metrics
  | [], _ => rfl
  | r :: rows, st => by
    have hstep : insertMemoryAll st (r :: rows) = insertMemoryAll (insertMemory st r) rows := rfl
    rw [hstep, insertMemoryAll_cpu rows (insertMemory st r)]
    rfl

theorem insertCpuAll_cpu :
    ∀ (rows : List CpuRow) (st : Store),
      (insertCpuAll st rows).cpu_metrics = st.cpu_metrics ++ rows
  | [], st => by simp [insertCpuAll]
  | r :: rows, st => by
    have hstep : insertCpuAll st (r :: rows) = insertCpuAll (insertCpu st r) rows := rfl
    rw [hstep, insertCpuAll_cpu rows (insertCpu st r)]
    simp [insertCpu]

theorem insertCpuAll_memory :
    ∀ (rows : List CpuRow) (st : Store),
      (insertCpuAll st rows).memory_metrics = st.memory_metrics
  | [], _ => rfl
  | r :: rows, st => by
    have hstep : insertCpuAll st (r :: rows) = insertCpuAll (insertCpu st r) rows := rfl
    rw [hstep, insertCpuAll_memory rows (insertCpu st r)]
    rfl

/-- A cpu row present after a tick either was already in the table or
was produced by get_cpu_details during that tick. -/
theorem tick_cpu_mem (ver : String) (env : TickEnv) (st : Store) :
    ∀ row ∈ (log_metrics_tick ver env st).1.cpu_metrics,
      row ∈ st.cpu_metrics
      ∨ ∃ c, get_cpu_details env.cpuReading = some c ∧ row.interrupts = c.interrupts := by
  intro row hrow
  unfold log_metrics_tick at hrow
  cases hslot : env.slot with
  | none =>
    rw [hslot] at hrow
    exact Or.inl hrow
  | some slot =>
    rw [hslot] at hrow
    cases hpf : env.procFound with
    | false =>
      simp only [hpf, Bool.false_eq_true, if_false, insertMemory, insertCpu, insertVersion] at hrow
      cases hsync : env.syncPercent <;> simp only [hsync] at hrow <;> exact Or.inl hrow
    | true =>
      simp only [hpf, if_true, insertMemory, insertCpu, insertVersion] at hrow
      cases hmem : get_memory_details env.memReading <;>
        cases hcpu : get_cpu_details env.cpuReading <;>
          cases hsync : env.syncPercent <;>
            simp only [hmem, hcpu, hsync] at hrow <;>
              first
              | exact Or.inl hrow
              | (rcases List.mem_append.mp hrow with h | h
                 · exact Or.inl h
                 · rw [List.mem_singleton] at h
                   subst h
                   exact Or.inr ⟨_, rfl, rfl⟩)

/-- get_cpu_details always sets interrupts to None. -/
theorem get_cpu_details_interrupts :
    ∀ (r : Option CpuReading) (c : CpuDetails),
      get_cpu_details r = some c → c.interrupts = none := by
  intro r c h
  cases r with
  | none => simp [get_cpu_details] at h
  | some rr =>
    simp only [get_cpu_details, Option.some.injEq] at h
    rw [← h]

end ProcessMonitor

namespace SimpleMonitor

/-- A cpu row present after a simple-monitor tick either was already
in the table or was produced by get_cpu_details during that tick. -/
theorem simple_tick_cpu_mem (env : TickEnv) (st : Store) :
    ∀ row ∈ (log_metrics_tick env st).1.cpu_metrics,
      row ∈ st.cpu_metrics
      ∨ ∃ c, get_cpu_details env.cpuCountRaw env.cpuReading = some c ∧
          row.interrupts = c.interrupts := by
  intro row hrow
  unfold log_metrics_tick at hrow
  cases hpf : env.procFound with
  | false =>
    simp only [hpf, Bool.false_eq_true, if_false] at hrow
    exact Or.inl hrow
  | true =>
    simp only [hpf, if_true] at hrow
    cases hmem : get_memory_details env.memReading <;>
      cases hcpu : get_cpu_details env.cpuCountRaw env.cpuReading <;>
        simp only [hmem, hcpu] at hrow <;>
          first
          | exact Or.inl hrow
          | (rcases List.mem_append.mp hrow with h | h
             · exact Or.inl h
             · rw [List.mem_singleton] at h
               subst h
               exact Or.inr ⟨_, rfl, rfl⟩)

/-- get_cpu_details of the simple monitor always sets interrupts to
None. -/
theorem simple_get_cpu_details_interrupts :
    ∀ (cpuCountRaw : Option Nat) (r : Option CpuReading) (c : CpuDetails),
      get_cpu_details cpuCountRaw r = some c → c.interrupts = none := by
  intro cc r c h
  cases r with
  | none => simp [get_cpu_details] at h
  | some rr =>
    simp only [get_cpu_details, Option.some.injEq] at h
    rw [← h]

end SimpleMonitor

/-- C7: for every store contents and tag list, the rows returned by
load_memory and load_cpu are in non-decreasing order of the progress
marker (slot_no), and rows sharing a marker appear in their insertion
order. -/
theorem C7_loads_sorted_ties_insertion_order (st : ProcessMonitor.Store) (tags : List String) :
    List.Sorted (fun a b : ProcessMonitor.MemPoint => a.slot_no ≤ b.slot_no)
      (ProcessMonitor.load_memory st tags)
    ∧ List.Sorted (fun a b : ProcessMonitor.CpuPoint => a.slot_no ≤ b.slot_no)
      (ProcessMonitor.load_cpu st tags)
    ∧ (∀ c : Int,
        (ProcessMonitor.load_memory st tags).filter (fun p => p.slot_no == c)
          = ((st.memory_metrics.filter (fun r => tags.contains r.version)).map
              ProcessMonitor.memPoint).filter (fun p => p.slot_no == c))
    ∧ (∀ c : Int,
        (ProcessMonitor.load_cpu st tags).filter (fun p => p.slot_no == c)
          = ((st.cpu_metrics.filter (fun r => tags.contains r.version)).map
              ProcessMonitor.cpuPoint).filter (fun p => p.slot_no == c)) := by
  refine ⟨sortByKey_sorted _ _, sortByKey_sorted _ _, fun c => ?_, fun c => ?_⟩
  · exact sortByKey_filter_key (fun p : ProcessMonitor.MemPoint => p.slot_no) c _
  · exact sortByKey_filter_key (fun p : ProcessMonitor.CpuPoint => p.slot_no) c _

/-- C8: appending any N memory samples and M cpu samples (zero of
either allowed, duplicate markers allowed) is total — every row lands
in its table, nothing is rejected — and load_memory / load_cpu then
return exactly the appended rows whose tag is in the requested list
(as a permutation: loading only reorders by marker). -/
theorem C8_appends_total_loads_exact (st : ProcessMonitor.Store)
    (ms : List ProcessMonitor.MemRow) (cs : List ProcessMonitor.CpuRow) (tags : List String) :
    (ProcessMonitor.insertCpuAll (ProcessMonitor.insertMemoryAll st ms) cs).memory_metrics
        = st.memory_metrics ++ ms
    ∧ (ProcessMonitor.insertCpuAll (ProcessMonitor.insertMemoryAll st ms) cs).cpu_metrics
        = st.cpu_metrics ++ cs
    ∧ List.Perm
        (ProcessMonitor.load_memory
          (ProcessMonitor.insertCpuAll (ProcessMonitor.insertMemoryAll st ms) cs) tags)
        (((st.memory_metrics ++ ms).filter (fun r => tags.contains r.version)).map
          ProcessMonitor.memPoint)
    ∧ List.Perm
        (ProcessMonitor.load_cpu
          (ProcessMonitor.insertCpuAll (ProcessMonitor.insertMemoryAll st ms) cs) tags)
        (((st.cpu_metrics ++ cs).filter (fun r => tags.contains r.version)).map
          ProcessMonitor.cpuPoint) := by
  have hm : (ProcessMonitor.insertCpuAll (ProcessMonitor.insertMemoryAll st ms) cs).memory_metrics
      = st.memory_metrics ++ ms := by
    rw [ProcessMonitor.insertCpuAll_memory, ProcessMonitor.insertMemoryAll_memory]
  have hc : (ProcessMonitor.insertCpuAll (ProcessMonitor.insertMemoryAll st ms) cs).cpu_metrics
      = st.cpu_metrics ++ cs := by
    rw [ProcessMonitor.insertCpuAll_cpu, ProcessMonitor.insertMemoryAll_cpu]
  refine ⟨hm, hc, ?_, ?_⟩
  · rw [ProcessMonitor.load_memory, hm]
    exact sortByKey_perm _ _
  · rw [ProcessMonitor.load_cpu, hc]
    exact sortByKey_perm _ _

/-- C9: loading the memory or cpu series with an empty tag list
returns an empty result and is not an error (SQLite accepts the empty
IN list, which matches no row). -/
theorem C9_empty_tag_list (st : ProcessMonitor.Store) :
    ProcessMonitor.load_memory st [] = [] ∧ ProcessMonitor.load_cpu st [] = [] := by
  constructor <;>
    simp [ProcessMonitor.load_memory, ProcessMonitor.load_cpu, sortByKey]

/-- C10: every cpu row appended by a sampling tick of either monitor
has a null interrupts value (the extractors hardcode interrupts to
None), so a cpu series whose rows all have null interrupts keeps that
invariant across any tick. -/
theorem C10_interrupts_always_null
    (ver : String) (envP : ProcessMonitor.TickEnv) (stP : ProcessMonitor.Store)
    (envS : SimpleMonitor.TickEnv) (stS : SimpleMonitor.Store)
    (hP : ∀ row ∈ stP.cpu_metrics, row.interrupts = none)
    (hS : ∀ row ∈ stS.cpu_metrics, row.interrupts = none) :
    (∀ row ∈ (ProcessMonitor.log_metrics_tick ver envP stP).1.cpu_metrics,
        row.interrupts = none)
    ∧ (∀ row ∈ (SimpleMonitor.log_metrics_tick envS stS).1.cpu_metrics,
        row.interrupts = none) := by
  constructor
  · intro row hrow
    rcases ProcessMonitor.tick_cpu_mem ver envP stP row hrow with h | ⟨c, hc, he⟩
    · exact hP row h
    · rw [he, ProcessMonitor.get_cpu_details_interrupts envP.cpuReading c hc]
  · intro row hrow
    rcases SimpleMonitor.simple_tick_cpu_mem envS stS row hrow with h | ⟨c, hc, he⟩
    · exact hS row h
    · rw [he, SimpleMonitor.simple_get_cpu_details_interrupts envS.cpuCountRaw envS.cpuReading c hc]

/-- Concrete cpu reading for the C10 witness. -/
def readingC10 : CpuReading :=
  { times := { user := 2, system := 3, children_user := none, children_system := none,
               iowait := none },
    percent := 50, ctx := { voluntary := 3, involuntary := 4 } }

def envC10P : ProcessMonitor.TickEnv :=
  { slot := some 1, procFound := true, memReading := none,
    cpuReading := some readingC10, syncPercent := some 2, now := 0 }

def envC10S : SimpleMonitor.TickEnv :=
  { now := 1, procFound := true, memReading := none,
    cpuReading := some readingC10, cpuCountRaw := some 4 }

/-- The cpu row the process-monitor tick appends for readingC10. -/
def rowC10P : ProcessMonitor.CpuRow :=
  { slot_no := 1, cpu_percent := some 50, user_time := some 2, system_time := some 3,
    children_user := some 0, children_system := some 0, iowait := some 0,
    ctx_switches := some 7, interrupts := none, version := "v" }

/-- The cpu row the simple-monitor tick appends for readingC10. -/
def rowC10S : SimpleMonitor.CpuRow :=
  { timestamp := 1, cpu_percent := 50, user_time := 2, system_time := 3,
    children_user := 0, children_system := 0, iowait := none, ctx_switches := 7,
    interrupts := none, process := "cardano-db-sync" }

/-- C10 witness: after one concrete tick of each monitor on a fresh
store, the cpu tables hold exactly one row each and its interrupts
column is null. -/
theorem C10_witness :
    ((ProcessMonitor.log_metrics_tick "v" envC10P ProcessMonitor.init_db).1.cpu_metrics.map
        ProcessMonitor.CpuRow.interrupts) = [none]
    ∧ ((SimpleMonitor.log_metrics_tick envC10S SimpleMonitor.init_db).1.cpu_metrics.map
        SimpleMonitor.CpuRow.interrupts) = [none] := by
  have h := C10_interrupts_always_null "v" envC10P ProcessMonitor.init_db envC10S
    SimpleMonitor.init_db (fun row hr => absurd hr (List.not_mem_nil row))
    (fun row hr => absurd hr (List.not_mem_nil row))
  constructor
  · rw [show (ProcessMonitor.log_metrics_tick "v" envC10P ProcessMonitor.init_db).1.cpu_metrics
        = [rowC10P] from rfl] at h ⊢
    rw [List.map_cons, List.map_nil, h.1 rowC10P (List.mem_singleton.mpr rfl)]
  · rw [show (SimpleMonitor.log_metrics_tick envC10S SimpleMonitor.init_db).1.cpu_metrics
        = [rowC10S] from rfl] at h ⊢
    rw [List.map_cons, List.map_nil, h.2 rowC10S (List.mem_singleton.mpr rfl)]
